import Mathlib

/-!
Verification of the asynchronous voice-delivery layer of the
claude-code-voice-handler repository: a shallow embedding in Lean 4 of the
message envelope model, the broker over its durable store, the consumer loop
with its retry/backoff policy, the daemon manager's lock and pid-file
discipline, the deduplicator, and the session voice registry, together with
proofs and refutations of the documented behavioural properties.

Time values and delays are modelled as rationals (the source uses POSIX
floats from time.time()).  Machine effects that the source observes through
the operating system (flock acquisition, process liveness, subprocess spawn
results, exceptions thrown by the store) appear as explicit oracle
parameters of the embedded functions.
-/

namespace VoiceHandler

/-! ## Envelope model (src/voice_handler/queue/broker.py) -/

/-- Embeds `MessageType` (broker.py lines 31-38). -/
inductive MessageType where
  | speak
  | greeting
  | completion
  | error
  | approval
  | shutdown
deriving DecidableEq, Repr

/-- The `.value` string of each enum member. -/
def MessageType.value : MessageType → String
  | .speak => "speak"
  | .greeting => "greeting"
  | .completion => "completion"
  | .error => "error"
  | .approval => "approval"
  | .shutdown => "shutdown"

/-- Embeds the `MessageType(raw)` enum lookup: `none` models the
`ValueError` raised on an unknown value. -/
def MessageType.ofValue (s : String) : Option MessageType :=
  if s = "speak" then some .speak
  else if s = "greeting" then some .greeting
  else if s = "completion" then some .completion
  else if s = "error" then some .error
  else if s = "approval" then some .approval
  else if s = "shutdown" then some .shutdown
  else none

/-- Values stored in the open `metadata` mapping of an envelope. -/
inductive MetaVal where
  | intVal (i : Int)
  | timeVal (t : ℚ)
  | noneVal
  | strVal (s : String)
deriving DecidableEq, Repr

/-- The `metadata` dict, modelled as an insertion-ordered association list
(the Python dict preserves insertion order). -/
abbrev Metadata := List (String × MetaVal)

/-- Membership test `k in d` on a Python dict. -/
def Metadata.hasKey : Metadata → String → Bool
  | [], _ => false
  | (k', _) :: rest, k => if k' = k then true else Metadata.hasKey rest k

/-- Lookup `d.get(k)` on a Python dict (`none` when the key is absent). -/
def Metadata.get : Metadata → String → Option MetaVal
  | [], _ => none
  | (k', v) :: rest, k => if k' = k then some v else Metadata.get rest k

/-- Assignment `d[k] = v` on a Python dict: update in place if the key exists,
append otherwise. -/
def Metadata.set (m : Metadata) (k : String) (v : MetaVal) : Metadata :=
  match m with
  | [] => [(k, v)]
  | (k', v') :: rest =>
    if k' = k then (k, v) :: rest else (k', v') :: Metadata.set rest k v

/-- Embeds the `VoiceMessage` dataclass (broker.py lines 41-61) after
`__post_init__` has run, so `timestamp` is always present. -/
structure VoiceMessage where
  message_type : MessageType
  text : String
  voice : String
  session_id : Option String
  priority : Int
  timestamp : ℚ
  metadata : Metadata
deriving DecidableEq, Repr

/-- The metadata part of `VoiceMessage.__post_init__` (broker.py lines
66-72): insert the retry-tracking keys when absent. -/
def postInitMetadata (m : Metadata) : Metadata :=
  let m1 := if m.hasKey "retry_count" then m else m.set "retry_count" (.intVal 0)
  if m1.hasKey "last_retry_time" then m1 else m1.set "last_retry_time" .noneVal

/-- The `VoiceMessage(...)` constructor including `__post_init__`
(broker.py lines 55-72).  `timestamp?` and `metadata?` model arguments left
at their `None` defaults; `now` is the `time.time()` read. -/
def mkVoiceMessage (mt : MessageType) (text voice : String)
    (session_id : Option String) (priority : Int)
    (timestamp? : Option ℚ) (metadata? : Option Metadata) (now : ℚ) :
    VoiceMessage :=
  { message_type := mt
    text := text
    voice := voice
    session_id := session_id
    priority := priority
    timestamp := timestamp?.getD now
    metadata := postInitMetadata (metadata?.getD []) }

/-- The dictionary shape produced by `to_dict` and consumed by
`from_dict`.  Fields are `Option`s because `from_dict` tolerates absent
keys via `.get` defaults; `to_dict` always emits every key. -/
structure MsgDict where
  message_type : String
  text : String
  voice : Option String
  session_id : Option (Option String)
  priority : Option Int
  timestamp : Option ℚ
  metadata : Option Metadata
deriving DecidableEq, Repr

/-- Embeds `VoiceMessage.to_dict` (broker.py lines 74-84). -/
def VoiceMessage.to_dict (m : VoiceMessage) : MsgDict :=
  { message_type := m.message_type.value
    text := m.text
    voice := some m.voice
    session_id := some m.session_id
    priority := some m.priority
    timestamp := some m.timestamp
    metadata := some m.metadata }

/-- Embeds `VoiceMessage.from_dict` (broker.py lines 86-97): each absent
key falls back to its `.get` default, `now` standing for the
`time.time()` fallback; the constructor (with `__post_init__`) is then
applied.  `none` models the `ValueError` of `MessageType(raw)` on an
unknown type string. -/
def VoiceMessage.from_dict (d : MsgDict) (now : ℚ) : Option VoiceMessage :=
  match MessageType.ofValue d.message_type with
  | none => none
  | some mt =>
    some (mkVoiceMessage mt d.text (d.voice.getD "nova") (d.session_id.getD none)
      (d.priority.getD 5) (some (d.timestamp.getD now)) (some (d.metadata.getD [])) now)

/-! ## Durable queue store and Message Broker
(src/voice_handler/queue/broker.py lines 100-265) -/

/-- One record held by the durable store: the stored dictionary plus the
insertion sequence number the store assigned to it. -/
structure StoreEntry where
  seq : Nat
  item : MsgDict
deriving DecidableEq, Repr

/-- Modelled from the spec: the Durable Queue Store backing the broker is
the persist-queue `SQLiteAckQueue`, an external dependency whose code is
not part of this repository's sources.  Per the spec, "the store is
expected to deliver higher-priority envelopes before lower-priority ones
when multiple are pending; ties broken by insertion order", with
`put`/`get`/`ack`/`nack` record semantics. -/
structure Store where
  entries : List StoreEntry
  nextSeq : Nat
deriving DecidableEq, Repr

def Store.empty : Store := { entries := [], nextSeq := 0 }

/-- Store operation `queue.put(d)`: append the record with a fresh insertion number. -/
def Store.put (s : Store) (d : MsgDict) : Store :=
  { entries := s.entries ++ [{ seq := s.nextSeq, item := d }]
    nextSeq := s.nextSeq + 1 }

/-- The priority of a stored record, read from its dictionary. -/
def entryPriority (e : StoreEntry) : Int :=
  e.item.priority.getD 5

/-- Of two records, the one the store serves first: higher priority wins,
and among equal priorities the earlier insertion wins. -/
def betterEntry (a b : StoreEntry) : StoreEntry :=
  if entryPriority a < entryPriority b ∨
      (entryPriority a = entryPriority b ∧ b.seq < a.seq)
  then b else a

/-- The record the store would serve next, when any is pending. -/
def Store.best (s : Store) : Option StoreEntry :=
  match s.entries with
  | [] => none
  | e :: rest => some (rest.foldl betterEntry e)

/-- Store operation `queue.get()`: remove and return the next record to serve; `none`
models the `Empty` exception on an empty store. -/
def Store.get (s : Store) : Option (StoreEntry × Store) :=
  match s.best with
  | none => none
  | some e =>
    some (e, { entries := s.entries.filter (fun x => x.seq ≠ e.seq)
               nextSeq := s.nextSeq })

/-- Store operation `queue.nack(raw)`: return a previously gotten record to the store,
keeping its original insertion number. -/
def Store.nackEntry (s : Store) (e : StoreEntry) : Store :=
  { entries := s.entries ++ [e], nextSeq := s.nextSeq }

/-- Embeds `MessageBroker`: `queue` is `none` when persist-queue is
unavailable or its initialisation failed (broker.py lines 131-147). -/
structure Broker where
  queue : Option Store
deriving DecidableEq, Repr

/-- Embeds `MessageBroker.enqueue` (broker.py lines 149-172).  The oracle
`putThrows` tells whether the underlying `queue.put` call raises; the
`try/except` turns that into a `false` return.  Returns the success flag
and the broker afterwards; the function is total, so no exception ever
reaches the caller. -/
def MessageBroker.enqueue (b : Broker) (m : VoiceMessage) (putThrows : Bool) :
    Bool × Broker :=
  match b.queue with
  | none => (false, b)
  | some q =>
    if putThrows then (false, b)
    else (true, { queue := some (q.put m.to_dict) })

/-- Embeds `MessageBroker.dequeue` (broker.py lines 174-198).  The oracle
`getThrows` tells whether the `queue.get` call raises; any exception —
as well as an empty store or an unparseable record — is caught and
reported as `none`.  The dequeued message is returned together with the
raw store record, mirroring `message._raw_item`. -/
def MessageBroker.dequeue (b : Broker) (getThrows : Bool) (now : ℚ) :
    Option (VoiceMessage × StoreEntry) × Broker :=
  match b.queue with
  | none => (none, b)
  | some q =>
    if getThrows then (none, b)
    else
      match q.get with
      | none => (none, b)
      | some (e, q') =>
        match VoiceMessage.from_dict e.item now with
        | none => (none, b)
        | some m => (some (m, e), { queue := some q' })

/-- Embeds `MessageBroker.ack` (broker.py lines 200-216): the record was
already removed from the pending set by `get`, and ack drops it
permanently, so the pending store state is unchanged. -/
def MessageBroker.ack (b : Broker) (_ : VoiceMessage) (_ : StoreEntry) : Broker :=
  b

/-- Embeds `MessageBroker.nack` (broker.py lines 218-236): the raw
record's metadata is overwritten with the message's current metadata and
the record is returned to the store. -/
def MessageBroker.nack (b : Broker) (m : VoiceMessage) (e : StoreEntry) : Broker :=
  match b.queue with
  | none => b
  | some q =>
    { queue := some (q.nackEntry { e with item := { e.item with metadata := some m.metadata } }) }

/-- Embeds `MessageBroker.send_shutdown` (broker.py lines 258-265). -/
def MessageBroker.send_shutdown (b : Broker) (now : ℚ) (putThrows : Bool) :
    Bool × Broker :=
  MessageBroker.enqueue b (mkVoiceMessage .shutdown "" "nova" none 10 none none now) putThrows

/-! ### Store ordering facts -/

/-- Entry `x` is served no earlier than `y`. -/
def entryLE (x y : StoreEntry) : Prop :=
  entryPriority x < entryPriority y ∨
    (entryPriority x = entryPriority y ∧ y.seq ≤ x.seq)

/-- The three-message scenario of the spec's ordering example: envelopes of
priorities 1, 9 and 5, enqueued in that order. -/
def c1Messages : List VoiceMessage :=
  [mkVoiceMessage .speak "first" "nova" none 1 none none 0,
   mkVoiceMessage .speak "second" "nova" none 9 none none 0,
   mkVoiceMessage .speak "third" "nova" none 5 none none 0]

/-- Enqueue a list of messages in order through the broker. -/
def enqueueAll (b : Broker) (ms : List VoiceMessage) : Broker :=
  ms.foldl (fun acc m => (MessageBroker.enqueue acc m false).2) b

/-- Dequeue (and ack) up to `n` times, collecting the priorities of the
envelopes received, in order. -/
def dequeuePriorities (b : Broker) : Nat → List Int
  | 0 => []
  | n + 1 =>
    match MessageBroker.dequeue b false 0 with
    | (none, _) => []
    | (some (m, e), b') => m.priority :: dequeuePriorities (MessageBroker.ack b' m e) n

/-- A two-envelope store: priority 1 inserted first, priority 9 second. -/
def c1LowEntry : StoreEntry :=
  { seq := 0, item := (mkVoiceMessage .speak "low" "nova" none 1 none none 0).to_dict }

def c1HighEntry : StoreEntry :=
  { seq := 1, item := (mkVoiceMessage .speak "high" "nova" none 9 none none 0).to_dict }

def c1WitnessStore : Store :=
  { entries := [c1LowEntry, c1HighEntry], nextSeq := 2 }

/-- A concrete message for witnesses. -/
def sampleMsg : VoiceMessage :=
  mkVoiceMessage .speak "hello" "nova" none 5 none none 0

/-! ## Queue consumer (src/voice_handler/queue/consumer.py) -/

/-- The consumer's configuration knobs (consumer.py lines 38-63), plus
whether a speak callback has been set. -/
structure ConsumerCfg where
  max_retries : Nat
  min_speech_delay : ℚ
  hasCallback : Bool
deriving DecidableEq, Repr

/-- Result of one invocation of the external Speech Sink callback:
returned normally, or raised. -/
inductive TtsOutcome where
  | success
  | exceptionFail
deriving DecidableEq, Repr

/-- The `reason` strings produced by `_process_message`. -/
inductive Reason where
  | success
  | exception
  | no_callback
deriving DecidableEq, Repr

/-- Read of `message.metadata.get('retry_count', 0)` — in this system the key,
when present, always holds an int (consumer.py line 162). -/
def metaRetryCount (m : VoiceMessage) : Int :=
  match m.metadata.get "retry_count" with
  | some (.intVal i) => i
  | _ => 0

/-- Python truthiness of a `last_retry_time` value as this system stores
it (`None` or a `time.time()` float): yields the timestamp exactly when
the value is a non-zero time. -/
def truthyTime : Option MetaVal → Option ℚ
  | some (.timeVal t) => if t = 0 then none else some t
  | _ => none

/-- Embeds `QueueConsumer._calculate_backoff_delay` (consumer.py lines
113-126). -/
def calculateBackoffDelay (retry_count : Int) : ℚ :=
  if retry_count = 0 then 0
  else if retry_count = 1 then 1/2
  else if retry_count = 2 then 1
  else if retry_count = 3 then 2
  else if retry_count = 4 then 5
  else 10

/-- Embeds `QueueConsumer._should_retry` (consumer.py lines 128-141). -/
def shouldRetry (cfg : ConsumerCfg) (m : VoiceMessage) (reason : Reason) : Bool :=
  if reason = .no_callback then false
  else if (cfg.max_retries : Int) ≤ metaRetryCount m then false
  else true

/-- Embeds `QueueConsumer._process_message` (consumer.py lines 77-111):
no callback set short-circuits; otherwise the Speech Sink outcome decides
(the minimum-spacing sleep affects timing only). -/
def processMessage (cfg : ConsumerCfg) (tts : TtsOutcome) : Bool × Reason :=
  if cfg.hasCallback then
    match tts with
    | .success => (true, .success)
    | .exceptionFail => (false, .exception)
  else (false, .no_callback)

/-- The metadata update performed before a retry nack (consumer.py lines
183-185): `retry_count` is incremented and `last_retry_time` set to the
current time. -/
def retriedMessage (m : VoiceMessage) (now : ℚ) : VoiceMessage :=
  let md1 := Metadata.set m.metadata "retry_count" (.intVal (metaRetryCount m + 1))
  let md2 := Metadata.set md1 "last_retry_time" (.timeVal now)
  { m with metadata := md2 }

/-- Observable actions of one consumer-loop iteration. -/
inductive LoopEvent where
  | delivered (text voice : String)
  | ackedShutdown
  | backoffNack
  | retryNack
  | dropped (reason : Reason)
deriving DecidableEq, Repr

/-- Only a `delivered` event invokes the Speech Sink. -/
def invokesSink : LoopEvent → Bool
  | .delivered _ _ => true
  | _ => false

structure IterResult where
  events : List LoopEvent
  broker : Broker
  exit : Bool
deriving DecidableEq, Repr

/-- Per-iteration oracle: the wall clock, whether the store `get` raises,
and what the Speech Sink does if invoked. -/
structure IterEnv where
  now : ℚ
  getThrows : Bool
  tts : TtsOutcome
deriving DecidableEq, Repr

/-- Embeds the delivery part of the consumer-loop body (consumer.py lines
174-201): invoke the sink, then ack on success, nack with updated retry
metadata when a retry is allowed, or ack-drop when not. -/
def handleDeliveryResult (cfg : ConsumerCfg) (now : ℚ) (b : Broker)
    (m : VoiceMessage) (e : StoreEntry) (tts : TtsOutcome) : IterResult :=
  match processMessage cfg tts with
  | (true, _) =>
    { events := [.delivered m.text m.voice]
      broker := MessageBroker.ack b m e
      exit := false }
  | (false, reason) =>
    if shouldRetry cfg m reason then
      { events := [.retryNack]
        broker := MessageBroker.nack b (retriedMessage m now) e
        exit := false }
    else
      { events := [.dropped reason]
        broker := MessageBroker.ack b m e
        exit := false }

/-- Embeds one iteration of `QueueConsumer._consumer_loop` (consumer.py
lines 148-201): dequeue, shutdown check, backoff check, then delivery. -/
def loopIter (cfg : ConsumerCfg) (env : IterEnv) (b : Broker) : IterResult :=
  match MessageBroker.dequeue b env.getThrows env.now with
  | (none, b') => { events := [], broker := b', exit := false }
  | (some (m, e), b') =>
    if m.message_type = .shutdown then
      { events := [.ackedShutdown], broker := MessageBroker.ack b' m e, exit := true }
    else
      let rc := metaRetryCount m
      if 0 < rc then
        match truthyTime (m.metadata.get "last_retry_time") with
        | some t =>
          if env.now - t < calculateBackoffDelay rc then
            { events := [.backoffNack], broker := MessageBroker.nack b' m e, exit := false }
          else handleDeliveryResult cfg env.now b' m e env.tts
        | none => handleDeliveryResult cfg env.now b' m e env.tts
      else handleDeliveryResult cfg env.now b' m e env.tts

/-- Iterate the consumer loop: `fuel` bounds the number of iterations of
the `while self._running` loop, and the body exits early on shutdown. -/
def consumerLoop (cfg : ConsumerCfg) (envs : Nat → IterEnv) (fuel : Nat) (b : Broker) :
    List LoopEvent × Broker :=
  match fuel with
  | 0 => ([], b)
  | Nat.succ n =>
    let r := loopIter cfg (envs 0) b
    if r.exit then (r.events, r.broker)
    else
      let rest := consumerLoop cfg (fun i => envs (i + 1)) n r.broker
      (r.events ++ rest.1, rest.2)

/-- A concrete failing envelope with one retry already recorded. -/
def retryMsg1 : VoiceMessage :=
  retriedMessage sampleMsg 100

def backoffWitnessEntry : StoreEntry :=
  { seq := 0, item := retryMsg1.to_dict }

def backoffWitnessStore : Store :=
  { entries := [backoffWitnessEntry], nextSeq := 1 }

/-- Witness scenario: a priority-5 envelope enqueued before a priority-10
shutdown sentinel. -/
def c7PendingEntry : StoreEntry :=
  { seq := 0, item := sampleMsg.to_dict }

def c7ShutdownEntry : StoreEntry :=
  { seq := 1, item := (mkVoiceMessage .shutdown "" "nova" none 10 none none 0).to_dict }

def c7Store : Store :=
  { entries := [c7PendingEntry, c7ShutdownEntry], nextSeq := 2 }

/-! ## Daemon manager (src/voice_handler/queue/daemon.py)

The daemon manager's OS effects are oracle fields: whether the
non-blocking `flock` succeeds, the pid file's content, per-pid liveness,
and the subprocess spawn outcome.  Each embedded operation reports,
besides its boolean result, the pid-file content afterwards and whether
the startup lock is still held at the moment the call returns. -/

structure DaemonEnv where
  lockAvailable : Bool
  pidFile : Option Nat
  alive : Nat → Bool
  spawnThrows : Bool
  spawnedPid : Nat
  spawnedAlive : Bool
  devMode : Bool

structure DaemonResult where
  result : Bool
  lockHeld : Bool
  pidFile : Option Nat
deriving DecidableEq, Repr

/-- Embeds `VoiceDaemon.is_running` (daemon.py lines 158-163): read the
pid record and check OS liveness. -/
def isRunningCheck (pid? : Option Nat) (alive : Nat → Bool) : Bool :=
  match pid? with
  | some p => alive p
  | none => false

/-- Embeds `VoiceDaemon._cleanup_stale_pid` (daemon.py lines 122-135):
drop the pid record when the recorded process is no longer alive. -/
def cleanupStalePid (pid? : Option Nat) (alive : Nat → Bool) : Option Nat :=
  match pid? with
  | some p => if alive p then some p else none
  | none => none

/-- Embeds `VoiceDaemon.start` (daemon.py lines 189-278).  The body is
two successive `try` blocks: the first (the already-running pre-check)
has an `except` but NO `finally`, so its `return True` path exits with
the startup lock still held; only the second (spawn) block carries the
`finally` that releases the lock. -/
def VoiceDaemon.start (env : DaemonEnv) : DaemonResult :=
  if !env.lockAvailable then
    { result := isRunningCheck env.pidFile env.alive
      lockHeld := false
      pidFile := env.pidFile }
  else if isRunningCheck env.pidFile env.alive then
    { result := true, lockHeld := true, pidFile := env.pidFile }
  else if env.spawnThrows then
    { result := false, lockHeld := false, pidFile := env.pidFile }
  else if env.spawnedAlive then
    { result := true, lockHeld := false, pidFile := some env.spawnedPid }
  else
    { result := false, lockHeld := false, pidFile := env.pidFile }

/-- Embeds `VoiceDaemon.start_dev` (daemon.py lines 280-371), whose lock,
pre-check and spawn control flow is line-for-line that of `start` (only
the subprocess argv differs). -/
def VoiceDaemon.startDev (env : DaemonEnv) : DaemonResult :=
  VoiceDaemon.start env

/-- Embeds `VoiceDaemon.ensure_running` (daemon.py lines 463-510): on
lock failure, wait and re-check liveness; otherwise clean stale pid
records, double-check liveness (returning `True` from inside the `try` —
before any release — when the daemon is already running), else release
the lock and delegate to `start`/`start_dev`, which re-acquires it
(un-contended in this single-caller model). -/
def VoiceDaemon.ensureRunning (env : DaemonEnv) : DaemonResult :=
  if !env.lockAvailable then
    { result := isRunningCheck env.pidFile env.alive
      lockHeld := false
      pidFile := env.pidFile }
  else
    let pid1 := cleanupStalePid env.pidFile env.alive
    if isRunningCheck pid1 env.alive then
      { result := true, lockHeld := true, pidFile := pid1 }
    else if env.devMode then
      VoiceDaemon.startDev { env with pidFile := pid1 }
    else
      VoiceDaemon.start { env with pidFile := pid1 }

/-- The environment seen when the daemon (pid 42) is already alive and
the startup lock is free. -/
def c4Env : DaemonEnv :=
  { lockAvailable := true
    pidFile := some 42
    alive := fun p => p == 42
    spawnThrows := false
    spawnedPid := 43
    spawnedAlive := true
    devMode := false }

/-- Oracle for `stop`: the pid record and whether the termination signal
raises (`os.kill` on a pid that is already gone raises `OSError`). -/
structure StopEnv where
  pidFile : Option Nat
  killThrows : Bool
deriving DecidableEq, Repr

structure StopResult where
  result : Bool
  pidFile : Option Nat
deriving DecidableEq, Repr

/-- Embeds `VoiceDaemon.stop` (daemon.py lines 373-409): with no pid
record, return `True`; otherwise signal, poll up to 10 times for exit
(the poll affects timing only — `_is_process_running` swallows its own
errors), then remove the pid record and return `True`.  If signalling
raises, the `except` path logs and returns `False` WITHOUT removing the
pid record. -/
def VoiceDaemon.stop (env : StopEnv) : StopResult :=
  match env.pidFile with
  | none => { result := true, pidFile := none }
  | some p =>
    if env.killThrows then
      { result := false, pidFile := some p }
    else
      { result := true, pidFile := none }

/-! ## Deduplicator (src/voice_handler/utils/dedup.py) -/

/-- Embeds `MessageDeduplicator`'s state (dedup.py lines 21-30). -/
structure DedupState where
  cache_duration : ℚ
  recent_announcements : List (String × ℚ)
  last_announcement_text : String
deriving DecidableEq, Repr

/-- Constructor `MessageDeduplicator(cache_duration)` (dedup.py lines 21-30). -/
def MessageDeduplicator.init (cache_duration : ℚ) : DedupState :=
  { cache_duration := cache_duration
    recent_announcements := []
    last_announcement_text := "" }

/-- Embeds `MessageDeduplicator.is_duplicate` (dedup.py lines 32-67),
parametrised by the hash function (`hashlib.md5(...).hexdigest()` in the
source, an external primitive): empty messages are never duplicates; an
exact match of the immediately preceding text short-circuits to `true`;
otherwise the cache is pruned to the rolling window, searched for the
hash, and on a miss the message is recorded and `false` returned. -/
def is_duplicate (hash : String → String) (st : DedupState) (message : String)
    (now : ℚ) : Bool × DedupState :=
  if message = "" then (false, st)
  else if message = st.last_announcement_text then (true, st)
  else
    let h := hash message
    let pruned := st.recent_announcements.filter (fun p => now - p.2 < st.cache_duration)
    if pruned.any (fun p => p.1 = h) then
      (true, { st with recent_announcements := pruned })
    else
      (false,
       { st with
         recent_announcements := pruned ++ [(h, now)]
         last_announcement_text := message })

/-! ## Session voice registry (src/voice_handler/core/session.py) -/

/-- One session record: `{voice, created_at, last_used}`. -/
structure SessRec where
  voice : String
  created_at : ℚ
  last_used : ℚ
deriving DecidableEq, Repr

/-- The session table, an insertion-ordered dict `session_id → record`. -/
abbrev Sessions := List (String × SessRec)

/-- The fixed voice pool (session.py line 29). -/
def VOICES : List String := ["nova", "alloy", "echo", "fable", "onyx", "shimmer"]

/-- Embeds `_cleanup_expired_sessions` (session.py lines 87-105): drop
every session whose `last_used` is more than the expiry window ago. -/
def cleanupExpiredSessions (expiry now : ℚ) (ss : Sessions) : Sessions :=
  ss.filter (fun p => ¬(expiry < now - p.2.last_used))

/-- Embeds `_get_used_voices` (session.py lines 107-110) on the
already-cleaned table. -/
def usedVoices (ss : Sessions) : List String :=
  ss.map (fun p => p.2.voice)

/-- Python's `min(items, key=lambda x: x[1].get('last_used', 0))`: scan in
iteration order, replacing only on a strictly smaller key, so the first
minimum wins ties. -/
def minByLastUsed (x : String × SessRec) (rest : Sessions) : String × SessRec :=
  rest.foldl (fun acc y => if y.2.last_used < acc.2.last_used then y else acc) x

/-- Python `preferred_voice or self.VOICES[0]` (session.py line 144). -/
def prefOrDefault (preferred : Option String) : String :=
  match preferred with
  | some v => if v = "" then VOICES.headD "" else v
  | none => VOICES.headD ""

/-- Embeds `_get_next_available_voice` (session.py lines 112-144),
returning the chosen voice together with the cleaned table (the cleanup
inside `_get_used_voices` mutates `self.sessions`): a truthy unused
preferred voice wins; else the first pool voice not in use; else the
voice of the least-recently-used active session; else the fallback. -/
def getNextAvailableVoice (expiry now : ℚ) (ss : Sessions) (preferred : Option String) :
    String × Sessions :=
  let ss1 := cleanupExpiredSessions expiry now ss
  let used := usedVoices ss1
  let prefHit := match preferred with
    | some v => if v ≠ "" ∧ v ∉ used then some v else none
    | none => none
  match prefHit with
  | some v => (v, ss1)
  | none =>
    match VOICES.find? (fun v => v ∉ used) with
    | some v => (v, ss1)
    | none =>
      match ss1 with
      | [] => (prefOrDefault preferred, ss1)
      | x :: rest => ((minByLastUsed x rest).2.voice, ss1)

/-- Dict lookup in `self.sessions` by session id. -/
def lookupSession (ss : Sessions) (sid : String) : Option SessRec :=
  (ss.find? (fun p => p.1 = sid)).map (fun p => p.2)

/-- Update `self.sessions[sid]` with `last_used = time.time()` (session.py line 167). -/
def updateLastUsed (ss : Sessions) (sid : String) (now : ℚ) : Sessions :=
  ss.map (fun p => if p.1 = sid then (p.1, { p.2 with last_used := now }) else p)

/-- Embeds `get_voice_for_session` (session.py lines 146-191): a falsy
session id gets the preferred/default voice without touching the table;
a known session keeps its voice (refreshing `last_used`); a new session
is assigned via `_get_next_available_voice` and appended. -/
def getVoiceForSession (expiry now : ℚ) (ss : Sessions) (sid : String)
    (preferred : Option String) : String × Sessions :=
  if sid = "" then (prefOrDefault preferred, ss)
  else
    match lookupSession ss sid with
    | some r => (r.voice, updateLastUsed ss sid now)
    | none =>
      let vs := getNextAvailableVoice expiry now ss preferred
      (vs.1, vs.2 ++ [(sid, { voice := vs.1, created_at := now, last_used := now })])

def c9Now : ℚ := 1000

/-- Six active sessions occupying the whole pool, with session "s3"
(voice "fable") the least recently used. -/
def c9Sessions : Sessions :=
  [("s0", { voice := "nova", created_at := 0, last_used := 900 }),
   ("s1", { voice := "alloy", created_at := 0, last_used := 910 }),
   ("s2", { voice := "echo", created_at := 0, last_used := 920 }),
   ("s3", { voice := "fable", created_at := 0, last_used := 890 }),
   ("s4", { voice := "onyx", created_at := 0, last_used := 930 }),
   ("s5", { voice := "shimmer", created_at := 0, last_used := 940 })]

/-! ## Theorems -/

theorem hasKey_set_self (m : Metadata) (k : String) (v : MetaVal) :
    (m.set k v).hasKey k = true := by
  induction m with
  | nil => simp [Metadata.set, Metadata.hasKey]
  | cons p rest ih =>
    obtain ⟨k', v'⟩ := p
    by_cases h : k' = k
    · simp [Metadata.set, Metadata.hasKey, h]
    · simp [Metadata.set, Metadata.hasKey, h, ih]

theorem hasKey_set_other (m : Metadata) (k k' : String) (v : MetaVal)
    (hne : k' ≠ k) : (m.set k' v).hasKey k = m.hasKey k := by
  induction m with
  | nil => simp [Metadata.set, Metadata.hasKey, hne]
  | cons p rest ih =>
    obtain ⟨k0, v0⟩ := p
    by_cases h : k0 = k'
    · subst h
      simp [Metadata.set, Metadata.hasKey, hne]
    · simp [Metadata.set, Metadata.hasKey, h, ih]

theorem hasKey_postInit_retry (m : Metadata) :
    (postInitMetadata m).hasKey "retry_count" = true := by
  unfold postInitMetadata
  by_cases h1 : m.hasKey "retry_count" = true
  · simp only [h1, if_true]
    by_cases h2 : m.hasKey "last_retry_time" = true
    · simp [h2, h1]
    · simp only [h2, if_false, Bool.false_eq_true]
      rw [hasKey_set_other m "retry_count" "last_retry_time" _ (by decide)]
      exact h1
  · simp only [h1, if_false, Bool.false_eq_true]
    by_cases h2 : (m.set "retry_count" (.intVal 0)).hasKey "last_retry_time" = true
    · simp only [h2, if_true]
      exact hasKey_set_self m "retry_count" _
    · simp only [h2, if_false, Bool.false_eq_true]
      rw [hasKey_set_other _ "retry_count" "last_retry_time" _ (by decide)]
      exact hasKey_set_self m "retry_count" _

theorem hasKey_postInit_lastRetry (m : Metadata) :
    (postInitMetadata m).hasKey "last_retry_time" = true := by
  unfold postInitMetadata
  by_cases h2 : (if m.hasKey "retry_count" = true then m
      else m.set "retry_count" (.intVal 0)).hasKey "last_retry_time" = true
  · simp [h2]
  · simp only [h2, if_false, Bool.false_eq_true]
    exact hasKey_set_self _ "last_retry_time" _

theorem postInit_of_hasKeys (m : Metadata)
    (h1 : m.hasKey "retry_count" = true)
    (h2 : m.hasKey "last_retry_time" = true) :
    postInitMetadata m = m := by
  unfold postInitMetadata
  simp [h1, h2]

theorem postInit_idem (m : Metadata) :
    postInitMetadata (postInitMetadata m) = postInitMetadata m :=
  postInit_of_hasKeys _ (hasKey_postInit_retry m) (hasKey_postInit_lastRetry m)

theorem ofValue_value (t : MessageType) :
    MessageType.ofValue t.value = some t := by
  cases t <;> rfl

/-- C10. For every `VoiceMessage` as produced by the constructor (so
with `timestamp` set and `metadata` holding the retry keys),
`from_dict (to_dict m)` reconstructs `m` exactly, in every field; the
wall-clock reading `now2` of the deserialising process is irrelevant. -/
theorem from_dict_to_dict_roundtrip (mt : MessageType) (text voice : String)
    (session_id : Option String) (priority : Int)
    (timestamp? : Option ℚ) (metadata? : Option Metadata) (now now2 : ℚ) :
    VoiceMessage.from_dict
      (VoiceMessage.to_dict (mkVoiceMessage mt text voice session_id priority
        timestamp? metadata? now)) now2
    = some (mkVoiceMessage mt text voice session_id priority
        timestamp? metadata? now) := by
  unfold VoiceMessage.from_dict VoiceMessage.to_dict
  simp only [mkVoiceMessage, ofValue_value, Option.getD_some]
  exact congrArg some (by simp [postInit_idem])

theorem entryLE_refl (x : StoreEntry) : entryLE x x :=
  Or.inr ⟨rfl, le_refl _⟩

theorem entryLE_trans {x y z : StoreEntry} (h1 : entryLE x y) (h2 : entryLE y z) :
    entryLE x z := by
  rcases h1 with h1 | ⟨h1, h1s⟩ <;> rcases h2 with h2 | ⟨h2, h2s⟩
  · exact Or.inl (lt_trans h1 h2)
  · exact Or.inl (h2 ▸ h1)
  · exact Or.inl (h1 ▸ h2)
  · exact Or.inr ⟨h1.trans h2, le_trans h2s h1s⟩

theorem entryLE_better_left (a b : StoreEntry) : entryLE a (betterEntry a b) := by
  unfold betterEntry
  by_cases h : entryPriority a < entryPriority b ∨
      (entryPriority a = entryPriority b ∧ b.seq < a.seq)
  · simp only [h, if_true]
    rcases h with h | ⟨h, hs⟩
    · exact Or.inl h
    · exact Or.inr ⟨h, le_of_lt hs⟩
  · simp only [h, if_false]
    exact entryLE_refl a

theorem entryLE_better_right (a b : StoreEntry) : entryLE b (betterEntry a b) := by
  unfold betterEntry
  by_cases h : entryPriority a < entryPriority b ∨
      (entryPriority a = entryPriority b ∧ b.seq < a.seq)
  · simp only [h, if_true]
    exact entryLE_refl b
  · simp only [h, if_false]
    push_neg at h
    obtain ⟨hp, hs⟩ := h
    rcases lt_or_eq_of_le hp with hlt | heq
    · exact Or.inl hlt
    · exact Or.inr ⟨heq, hs heq.symm⟩

theorem better_eq_or (a b : StoreEntry) :
    betterEntry a b = a ∨ betterEntry a b = b := by
  unfold betterEntry
  by_cases h : entryPriority a < entryPriority b ∨
      (entryPriority a = entryPriority b ∧ b.seq < a.seq) <;> simp [h]

theorem foldl_better_mem (e : StoreEntry) (rest : List StoreEntry) :
    rest.foldl betterEntry e ∈ e :: rest := by
  induction rest generalizing e with
  | nil => simp
  | cons x xs ih =>
    simp only [List.foldl_cons]
    have hm := ih (betterEntry e x)
    rcases List.mem_cons.mp hm with hm | hm
    · rcases better_eq_or e x with h | h
      · rw [hm, h]
        exact List.mem_cons_self _ _
      · rw [hm, h]
        exact List.mem_cons_of_mem _ (List.mem_cons_self _ _)
    · exact List.mem_cons_of_mem _ (List.mem_cons_of_mem _ hm)

theorem foldl_better_le (e : StoreEntry) (rest : List StoreEntry) :
    ∀ x ∈ e :: rest, entryLE x (rest.foldl betterEntry e) := by
  induction rest generalizing e with
  | nil =>
    intro x hx
    simp only [List.mem_singleton] at hx
    subst hx
    simp only [List.foldl_nil]
    exact entryLE_refl x
  | cons y ys ih =>
    intro x hx
    simp only [List.foldl_cons]
    rcases List.mem_cons.mp hx with hxe | hx2
    · rw [hxe]
      exact entryLE_trans (entryLE_better_left e y)
        (ih (betterEntry e y) _ (List.mem_cons_self _ _))
    · rcases List.mem_cons.mp hx2 with hxy | hxs
      · rw [hxy]
        exact entryLE_trans (entryLE_better_right e y)
          (ih (betterEntry e y) _ (List.mem_cons_self _ _))
      · exact ih (betterEntry e y) x (List.mem_cons_of_mem _ hxs)

theorem store_get_some {s : Store} {e : StoreEntry} {s' : Store}
    (h : s.get = some (e, s')) :
    e ∈ s.entries ∧
    s'.entries = s.entries.filter (fun x => x.seq ≠ e.seq) ∧
    ∀ x ∈ s.entries, entryLE x e := by
  rcases hs : s.entries with _ | ⟨e0, rest⟩
  · unfold Store.get Store.best at h
    rw [hs] at h
    simp at h
  · unfold Store.get Store.best at h
    rw [hs] at h
    simp only [Option.some.injEq, Prod.mk.injEq] at h
    obtain ⟨he, hs'⟩ := h
    refine ⟨?_, ?_, ?_⟩
    · rw [← he]
      exact foldl_better_mem e0 rest
    · rw [← hs']
      simp only [he]
    · intro x hx
      rw [← he]
      exact foldl_better_le e0 rest x hx

/-- C1. Dequeue serves pending envelopes in priority order, higher
priority first and ties broken by insertion order: whatever `get` returns,
every envelope still pending has either strictly lower priority or the
same priority and a later insertion number; and enqueueing envelopes of
priorities [1, 9, 5] then dequeuing three times yields [9, 5, 1]. -/
theorem dequeue_priority_order :
    (∀ (s : Store) (e : StoreEntry) (s' : Store), Store.get s = some (e, s') →
      ∀ e' ∈ s'.entries, entryPriority e' < entryPriority e ∨
        (entryPriority e' = entryPriority e ∧ e.seq < e'.seq)) ∧
    dequeuePriorities (enqueueAll { queue := some Store.empty } c1Messages) 3
      = [9, 5, 1] := by
  constructor
  · intro s e s' h e' he'
    obtain ⟨hmem, hfil, hle⟩ := store_get_some h
    rw [hfil, List.mem_filter] at he'
    obtain ⟨hin, hneb⟩ := he'
    have hne : e'.seq ≠ e.seq := by simpa using hneb
    rcases hle e' hin with hlt | ⟨heq, hsle⟩
    · exact Or.inl hlt
    · exact Or.inr ⟨heq, lt_of_le_of_ne hsle (fun hh => hne hh.symm)⟩
  · rfl

theorem dequeue_priority_order_witness :
    entryPriority c1LowEntry < entryPriority c1HighEntry ∨
      (entryPriority c1LowEntry = entryPriority c1HighEntry ∧
        c1HighEntry.seq < c1LowEntry.seq) :=
  dequeue_priority_order.1 c1WitnessStore c1HighEntry
    { entries := [c1LowEntry], nextSeq := 2 } (by decide) c1LowEntry (by decide)

/-- C8. When the underlying store is unavailable — the queue handle is
absent or the store operation throws — `enqueue` returns `false` and
`dequeue` returns `none`, each leaving the broker unchanged; an empty
store likewise yields `none`.  Both functions are total, so no exception
reaches the caller. -/
theorem broker_store_unavailable_safe :
    (∀ (b : Broker) (m : VoiceMessage) (pt : Bool), b.queue = none →
        MessageBroker.enqueue b m pt = (false, b)) ∧
    (∀ (b : Broker) (m : VoiceMessage),
        MessageBroker.enqueue b m true = (false, b)) ∧
    (∀ (b : Broker) (gt : Bool) (now : ℚ), b.queue = none →
        MessageBroker.dequeue b gt now = (none, b)) ∧
    (∀ (b : Broker) (now : ℚ),
        MessageBroker.dequeue b true now = (none, b)) ∧
    (∀ (b : Broker) (q : Store) (now : ℚ), b.queue = some q → q.entries = [] →
        MessageBroker.dequeue b false now = (none, b)) := by
  refine ⟨?_, ?_, ?_, ?_, ?_⟩
  · intro b m pt h
    unfold MessageBroker.enqueue
    rw [h]
  · intro b m
    unfold MessageBroker.enqueue
    cases hb : b.queue <;> simp
  · intro b gt now h
    unfold MessageBroker.dequeue
    rw [h]
  · intro b now
    unfold MessageBroker.dequeue
    cases hb : b.queue <;> simp
  · intro b q now h he
    unfold MessageBroker.dequeue
    rw [h]
    simp [Store.get, Store.best, he]

theorem broker_store_unavailable_safe_witness :
    MessageBroker.enqueue { queue := none } sampleMsg false = (false, { queue := none }) ∧
    MessageBroker.dequeue { queue := none } false 0 = (none, { queue := none }) ∧
    MessageBroker.dequeue { queue := some Store.empty } false 0
      = (none, { queue := some Store.empty }) :=
  ⟨broker_store_unavailable_safe.1 _ sampleMsg false rfl,
   broker_store_unavailable_safe.2.2.1 _ false 0 rfl,
   broker_store_unavailable_safe.2.2.2.2 _ Store.empty 0 rfl rfl⟩

theorem get_set_self (m : Metadata) (k : String) (v : MetaVal) :
    (m.set k v).get k = some v := by
  induction m with
  | nil => simp [Metadata.set, Metadata.get]
  | cons p rest ih =>
    obtain ⟨k', v'⟩ := p
    by_cases h : k' = k
    · simp [Metadata.set, Metadata.get, h]
    · simp [Metadata.set, Metadata.get, h, ih]

theorem get_set_other (m : Metadata) (k k' : String) (v : MetaVal)
    (hne : k' ≠ k) : (m.set k' v).get k = m.get k := by
  induction m with
  | nil => simp [Metadata.set, Metadata.get, hne]
  | cons p rest ih =>
    obtain ⟨k0, v0⟩ := p
    by_cases h : k0 = k'
    · subst h
      simp [Metadata.set, Metadata.get, hne]
    · simp [Metadata.set, Metadata.get, h, ih]

theorem metaRetryCount_retried (m : VoiceMessage) (now : ℚ) :
    metaRetryCount (retriedMessage m now) = metaRetryCount m + 1 := by
  conv_lhs => unfold metaRetryCount retriedMessage
  simp only
  rw [get_set_other _ _ "last_retry_time" _ (by decide), get_set_self]

theorem shouldRetry_exception_iff (cfg : ConsumerCfg) (m : VoiceMessage) :
    shouldRetry cfg m .exception = true ↔ metaRetryCount m < (cfg.max_retries : Int) := by
  unfold shouldRetry
  show (if (cfg.max_retries : Int) ≤ metaRetryCount m then false else true) = true ↔ _
  by_cases h : (cfg.max_retries : Int) ≤ metaRetryCount m
  · rw [if_pos h]
    constructor
    · intro hc
      exact absurd hc (by decide)
    · intro hc
      omega
  · rw [if_neg h]
    constructor
    · intro _
      omega
    · intro _
      rfl

/-- C2. On a delivery failure the consumer increments `retry_count`,
sets `last_retry_time` and nacks, unless `retry_count` has reached
`max_retries`, in which case it acks (dropping the envelope); hence an
envelope starting at `retry_count = 0` is failure-nacked at most
`max_retries` times. -/
theorem failure_retry_policy :
    (∀ (cfg : ConsumerCfg) (now : ℚ) (b : Broker) (m : VoiceMessage) (e : StoreEntry),
      cfg.hasCallback = true →
      metaRetryCount m < (cfg.max_retries : Int) →
      handleDeliveryResult cfg now b m e .exceptionFail =
        { events := [.retryNack]
          broker := MessageBroker.nack b (retriedMessage m now) e
          exit := false }) ∧
    (∀ (cfg : ConsumerCfg) (now : ℚ) (b : Broker) (m : VoiceMessage) (e : StoreEntry),
      cfg.hasCallback = true →
      (cfg.max_retries : Int) ≤ metaRetryCount m →
      handleDeliveryResult cfg now b m e .exceptionFail =
        { events := [.dropped .exception]
          broker := MessageBroker.ack b m e
          exit := false }) ∧
    (∀ (cfg : ConsumerCfg) (k : Nat) (g : Nat → VoiceMessage) (nows : Nat → ℚ),
      metaRetryCount (g 0) = 0 →
      (∀ i < k, shouldRetry cfg (g i) .exception = true ∧
        g (i + 1) = retriedMessage (g i) (nows i)) →
      k ≤ cfg.max_retries) := by
  refine ⟨?_, ?_, ?_⟩
  · intro cfg now b m e hcb hlt
    unfold handleDeliveryResult processMessage
    rw [hcb]
    simp only [if_true]
    have hs : shouldRetry cfg m .exception = true := (shouldRetry_exception_iff cfg m).mpr hlt
    simp [hs, retriedMessage]
  · intro cfg now b m e hcb hge
    unfold handleDeliveryResult processMessage
    rw [hcb]
    simp only [if_true]
    have hs : shouldRetry cfg m .exception = false := by
      rw [Bool.eq_false_iff]
      intro hc
      exact absurd ((shouldRetry_exception_iff cfg m).mp hc) (not_lt.mpr hge)
    simp [hs]
  · intro cfg k g nows h0 hchain
    have hcount : ∀ i ≤ k, metaRetryCount (g i) = (i : Int) := by
      intro i hi
      induction i with
      | zero => simpa using h0
      | succ n ihn =>
        have hn := hchain n (by omega)
        rw [hn.2, metaRetryCount_retried, ihn (by omega)]
        push_cast
        ring
    cases k with
    | zero => exact Nat.zero_le _
    | succ n =>
      have hlast := hchain n (by omega)
      have hlt := (shouldRetry_exception_iff cfg (g n)).mp hlast.1
      rw [hcount n (by omega)] at hlt
      exact_mod_cast Int.add_one_le_iff.mpr hlt

theorem failure_retry_policy_witness :
    handleDeliveryResult { max_retries := 3, min_speech_delay := 1, hasCallback := true }
        200 { queue := some Store.empty } retryMsg1 c1LowEntry .exceptionFail =
      { events := [.retryNack]
        broker := MessageBroker.nack { queue := some Store.empty }
          (retriedMessage retryMsg1 200) c1LowEntry
        exit := false } ∧
    (3 : Nat) ≤ 3 :=
  ⟨failure_retry_policy.1 _ 200 _ retryMsg1 c1LowEntry rfl (by decide),
   failure_retry_policy.2.2 { max_retries := 3, min_speech_delay := 1, hasCallback := true }
     3 (fun i => Nat.rec sampleMsg (fun _ prev => retriedMessage prev 100) i) (fun _ => 100)
     (by decide) (by
       intro i hi
       refine ⟨?_, rfl⟩
       interval_cases i <;> decide)⟩

/-- C3. The backoff table is 0s, 0.5s, 1s, 2s, 5s for retry counts 0-4
and a flat 10s for 5 or more; and a dequeued non-shutdown message in its
backoff window (positive retry count, non-null last-retry timestamp,
elapsed time below the scheduled delay) is nacked straight back without
the Speech Sink being invoked. -/
theorem backoff_nacks_without_delivery :
    (calculateBackoffDelay 0 = 0 ∧ calculateBackoffDelay 1 = 1/2 ∧
     calculateBackoffDelay 2 = 1 ∧ calculateBackoffDelay 3 = 2 ∧
     calculateBackoffDelay 4 = 5 ∧ ∀ n : Int, 5 ≤ n → calculateBackoffDelay n = 10) ∧
    (∀ (cfg : ConsumerCfg) (env : IterEnv) (b b₁ : Broker) (m : VoiceMessage)
        (e : StoreEntry) (t : ℚ),
      MessageBroker.dequeue b env.getThrows env.now = (some (m, e), b₁) →
      m.message_type ≠ .shutdown →
      0 < metaRetryCount m →
      m.metadata.get "last_retry_time" = some (.timeVal t) →
      0 < t →
      env.now - t < calculateBackoffDelay (metaRetryCount m) →
      loopIter cfg env b =
        { events := [.backoffNack], broker := MessageBroker.nack b₁ m e, exit := false } ∧
      ∀ ev ∈ (loopIter cfg env b).events, invokesSink ev = false) := by
  constructor
  · refine ⟨rfl, rfl, rfl, rfl, rfl, ?_⟩
    intro n hn
    unfold calculateBackoffDelay
    have h0 : n ≠ 0 := by omega
    have h1 : n ≠ 1 := by omega
    have h2 : n ≠ 2 := by omega
    have h3 : n ≠ 3 := by omega
    have h4 : n ≠ 4 := by omega
    simp [h0, h1, h2, h3, h4]
  · intro cfg env b b₁ m e t hdq hshut hrc hlrt ht helapsed
    have hiter : loopIter cfg env b =
        { events := [.backoffNack], broker := MessageBroker.nack b₁ m e, exit := false } := by
      unfold loopIter
      rw [hdq]
      have htt : truthyTime (m.metadata.get "last_retry_time") = some t := by
        rw [hlrt]
        unfold truthyTime
        simp [ne_of_gt ht]
      simp [hshut, hrc, htt, helapsed]
    refine ⟨hiter, ?_⟩
    rw [hiter]
    intro ev hev
    simp only [List.mem_singleton] at hev
    subst hev
    rfl

theorem backoff_nacks_without_delivery_witness :
    loopIter { max_retries := 3, min_speech_delay := 1, hasCallback := true }
        { now := 100, getThrows := false, tts := .success }
        { queue := some backoffWitnessStore } =
      { events := [.backoffNack]
        broker := MessageBroker.nack { queue := some { entries := [], nextSeq := 1 } }
          retryMsg1 backoffWitnessEntry
        exit := false } := by
  have hrc1 : metaRetryCount retryMsg1 = 1 := by decide
  have helapsed : (100 : ℚ) - 100 < calculateBackoffDelay (metaRetryCount retryMsg1) := by
    rw [hrc1]
    show (100 : ℚ) - 100 < 1/2
    simp
  have h := (backoff_nacks_without_delivery.2
    { max_retries := 3, min_speech_delay := 1, hasCallback := true }
    { now := 100, getThrows := false, tts := .success }
    { queue := some backoffWitnessStore } { queue := some { entries := [], nextSeq := 1 } }
    retryMsg1 backoffWitnessEntry 100
    (by decide) (by decide) (by decide) (by decide) (by decide) helapsed).1
  exact h

theorem best_unique {q : Store} {esd : StoreEntry}
    (hmem : esd ∈ q.entries)
    (hmax : ∀ e' ∈ q.entries, e' ≠ esd → entryPriority e' < entryPriority esd) :
    q.best = some esd := by
  rcases hq : q.entries with _ | ⟨e0, rest⟩
  · rw [hq] at hmem
    simp at hmem
  · unfold Store.best
    rw [hq]
    simp only [Option.some.injEq]
    by_contra hne
    have hb := foldl_better_mem e0 rest
    have hle := foldl_better_le e0 rest esd (hq ▸ hmem)
    have hlt := hmax _ (hq ▸ hb) hne
    rcases hle with h | ⟨h, _⟩
    · exact absurd hlt (not_lt.mpr (le_of_lt h))
    · exact absurd h.symm (ne_of_lt hlt)

/-- C7. A pending Shutdown envelope that outranks every other pending
envelope is dequeued first: the consumer loop acks it and exits at once,
delivering nothing to the Speech Sink, and the lower-priority backlog is
left unprocessed in the store. -/
theorem shutdown_preempts_backlog (cfg : ConsumerCfg) (envs : Nat → IterEnv)
    (fuel : Nat) (q : Store) (esd : StoreEntry)
    (hgt : (envs 0).getThrows = false)
    (hmem : esd ∈ q.entries)
    (hty : esd.item.message_type = "shutdown")
    (hmax : ∀ e' ∈ q.entries, e' ≠ esd → entryPriority e' < entryPriority esd) :
    consumerLoop cfg envs (fuel + 1) { queue := some q } =
      ([LoopEvent.ackedShutdown],
       { queue := some { entries := q.entries.filter (fun x => x.seq ≠ esd.seq)
                         nextSeq := q.nextSeq } }) := by
  have hget : q.get =
      some (esd, { entries := q.entries.filter (fun x => x.seq ≠ esd.seq)
                   nextSeq := q.nextSeq }) := by
    unfold Store.get
    rw [best_unique hmem hmax]
  have hfd : VoiceMessage.from_dict esd.item (envs 0).now =
      some (mkVoiceMessage .shutdown esd.item.text (esd.item.voice.getD "nova")
        (esd.item.session_id.getD none) (esd.item.priority.getD 5)
        (some (esd.item.timestamp.getD (envs 0).now))
        (some (esd.item.metadata.getD [])) (envs 0).now) := by
    unfold VoiceMessage.from_dict
    rw [hty]
    rfl
  have hdq : MessageBroker.dequeue { queue := some q } (envs 0).getThrows (envs 0).now =
      (some (mkVoiceMessage .shutdown esd.item.text (esd.item.voice.getD "nova")
          (esd.item.session_id.getD none) (esd.item.priority.getD 5)
          (some (esd.item.timestamp.getD (envs 0).now))
          (some (esd.item.metadata.getD [])) (envs 0).now, esd),
       { queue := some { entries := q.entries.filter (fun x => x.seq ≠ esd.seq)
                         nextSeq := q.nextSeq } }) := by
    unfold MessageBroker.dequeue
    rw [hgt]
    simp only [Bool.false_eq_true, if_false, hget, hfd]
  have hiter : loopIter cfg (envs 0) { queue := some q } =
      { events := [.ackedShutdown]
        broker := { queue := some { entries := q.entries.filter (fun x => x.seq ≠ esd.seq)
                                    nextSeq := q.nextSeq } }
        exit := true } := by
    unfold loopIter
    rw [hdq]
    simp [mkVoiceMessage, MessageBroker.ack]
  unfold consumerLoop
  rw [hiter]
  rfl

theorem shutdown_preempts_backlog_witness :
    consumerLoop { max_retries := 3, min_speech_delay := 1, hasCallback := true }
        (fun _ => { now := 0, getThrows := false, tts := .success }) 4
        { queue := some c7Store } =
      ([LoopEvent.ackedShutdown],
       { queue := some { entries := c7Store.entries.filter (fun x => x.seq ≠ c7ShutdownEntry.seq)
                         nextSeq := c7Store.nextSeq } }) :=
  shutdown_preempts_backlog _ _ 3 c7Store c7ShutdownEntry rfl (by decide) (by decide)
    (by decide)

/-- C4 (refuted: code bug).  When the startup lock is acquired and the
daemon is then found already running, both `ensure_running` and `start`
return `True` from inside a `try` block that has no `finally`, so the
exclusive startup lock is still held when the call returns — contradicting
the release-on-every-exit-path discipline the code's own comments
("ALWAYS release the lock when exiting start()") claim. -/
theorem ensure_running_leaks_lock_when_already_running :
    VoiceDaemon.ensureRunning c4Env =
      { result := true, lockHeld := true, pidFile := some 42 } ∧
    VoiceDaemon.start c4Env =
      { result := true, lockHeld := true, pidFile := some 42 } := by
  constructor <;> rfl

/-- C5 counterexample: when a pid record (pid 123) exists but the
termination signal raises, `stop` returns `False` and the stale pid
record is left behind — the claim's "removes the pid record on every
execution path" is false on the code. -/
theorem stop_leaves_pid_record_when_kill_raises :
    VoiceDaemon.stop { pidFile := some 123, killThrows := true } =
      { result := false, pidFile := some 123 } := by
  rfl

/-- C5 (amended).  When a pid record exists, `stop` signals and polls
boundedly; if signalling does not raise it removes the pid record and
returns `True` regardless of whether the process exited within the
polling bound, but if signalling raises it returns `False` and leaves
the pid record in place. -/
theorem stop_removes_pid_record_unless_kill_raises (env : StopEnv) (p : Nat)
    (hp : env.pidFile = some p) :
    (env.killThrows = false →
      VoiceDaemon.stop env = { result := true, pidFile := none }) ∧
    (env.killThrows = true →
      VoiceDaemon.stop env = { result := false, pidFile := some p }) := by
  constructor <;> intro hk <;> unfold VoiceDaemon.stop <;> rw [hp] <;> simp [hk]

theorem stop_removes_pid_record_unless_kill_raises_witness :
    VoiceDaemon.stop { pidFile := some 123, killThrows := false } =
      { result := true, pidFile := none } :=
  (stop_removes_pid_record_unless_kill_raises
    { pidFile := some 123, killThrows := false } 123 rfl).1 rfl

/-- C6 (refuted: code bug).  With a 5-second window,
`is_duplicate("X")` at time 0 returns `false`; called again at time 100 —
more than the window after the announcement, with no intervening calls —
it returns `true`, not `false`, because the exact-match short-circuit
against `last_announcement_text` never expires.  This contradicts the
repository's own test `test_deduplicator_cache_expiry`. -/
theorem dedup_exact_match_never_expires :
    (is_duplicate id (MessageDeduplicator.init 5) "X" 0).1 = false ∧
    (is_duplicate id (is_duplicate id (MessageDeduplicator.init 5) "X" 0).2 "X" 100).1
      = true := by
  constructor <;> rfl

theorem minStep_eq_or (a y : String × SessRec) :
    (if y.2.last_used < a.2.last_used then y else a) = y ∨
    (if y.2.last_used < a.2.last_used then y else a) = a := by
  by_cases h : y.2.last_used < a.2.last_used <;> simp [h]

theorem minByLastUsed_mem (x : String × SessRec) (rest : Sessions) :
    minByLastUsed x rest ∈ x :: rest := by
  unfold minByLastUsed
  induction rest generalizing x with
  | nil => simp
  | cons y ys ih =>
    simp only [List.foldl_cons]
    have hm := ih (if y.2.last_used < x.2.last_used then y else x)
    rcases List.mem_cons.mp hm with hm | hm
    · rcases minStep_eq_or x y with h | h
      · rw [hm, h]
        exact List.mem_cons_of_mem _ (List.mem_cons_self _ _)
      · rw [hm, h]
        exact List.mem_cons_self _ _
    · exact List.mem_cons_of_mem _ (List.mem_cons_of_mem _ hm)

theorem minStep_le_left (a y : String × SessRec) :
    (if y.2.last_used < a.2.last_used then y else a).2.last_used ≤ a.2.last_used := by
  by_cases h : y.2.last_used < a.2.last_used <;> simp [h]
  exact le_of_lt h

theorem minStep_le_right (a y : String × SessRec) :
    (if y.2.last_used < a.2.last_used then y else a).2.last_used ≤ y.2.last_used := by
  by_cases h : y.2.last_used < a.2.last_used <;> simp [h]
  exact le_of_not_lt h

theorem minByLastUsed_le (x : String × SessRec) (rest : Sessions) :
    ∀ z ∈ x :: rest, (minByLastUsed x rest).2.last_used ≤ z.2.last_used := by
  unfold minByLastUsed
  induction rest generalizing x with
  | nil =>
    intro z hz
    simp only [List.mem_singleton] at hz
    subst hz
    simp only [List.foldl_nil]
    exact le_refl _
  | cons y ys ih =>
    intro z hz
    simp only [List.foldl_cons]
    rcases List.mem_cons.mp hz with hze | hz2
    · subst hze
      exact le_trans
        (ih (if y.2.last_used < z.2.last_used then y else z) _ (List.mem_cons_self _ _))
        (minStep_le_left z y)
    · rcases List.mem_cons.mp hz2 with hzy | hzs
      · subst hzy
        exact le_trans
          (ih (if z.2.last_used < x.2.last_used then z else x) _ (List.mem_cons_self _ _))
          (minStep_le_right x z)
      · exact ih (if y.2.last_used < x.2.last_used then y else x) z
          (List.mem_cons_of_mem _ hzs)

theorem minByLastUsed_unique {x : String × SessRec} {rest : Sessions}
    {o : String × SessRec} (ho : o ∈ x :: rest)
    (hstrict : ∀ p ∈ x :: rest, p ≠ o → o.2.last_used < p.2.last_used) :
    minByLastUsed x rest = o := by
  by_contra hne
  have hmem := minByLastUsed_mem x rest
  have hlt := hstrict _ hmem hne
  have hle := minByLastUsed_le x rest o ho
  exact absurd hlt (not_lt.mpr hle)

/-- C9. When every voice of the fixed pool is in use by the active
(non-expired) sessions and the preferred voice (if any) is drawn from the
pool, a request for a brand-new session is answered with the voice of the
active session whose `last_used` is strictly oldest, rather than being
refused. -/
theorem pool_exhausted_reuses_lru_voice (expiry now : ℚ) (ss : Sessions)
    (sid : String) (preferred : Option String) (o : String × SessRec)
    (hsid : sid ≠ "")
    (hnew : lookupSession ss sid = none)
    (hpool : ∀ v ∈ VOICES, v ∈ usedVoices (cleanupExpiredSessions expiry now ss))
    (hpref : ∀ v, preferred = some v → v ∈ usedVoices (cleanupExpiredSessions expiry now ss))
    (ho : o ∈ cleanupExpiredSessions expiry now ss)
    (hstrict : ∀ p ∈ cleanupExpiredSessions expiry now ss, p ≠ o →
      o.2.last_used < p.2.last_used) :
    (getVoiceForSession expiry now ss sid preferred).1 = o.2.voice := by
  have hfind : VOICES.find?
      (fun v => v ∉ usedVoices (cleanupExpiredSessions expiry now ss)) = none := by
    rw [List.find?_eq_none]
    intro v hv
    simpa using hpool v hv
  unfold getVoiceForSession
  rw [if_neg hsid, hnew]
  simp only
  unfold getNextAvailableVoice
  simp only
  rcases hp : preferred with _ | v
  all_goals subst hp
  · simp only [hfind]
    rcases hss : cleanupExpiredSessions expiry now ss with _ | ⟨x, rest⟩
    · rw [hss] at ho
      simp at ho
    · rw [hss] at ho hstrict
      show (minByLastUsed x rest).2.voice = o.2.voice
      rw [minByLastUsed_unique ho hstrict]
  · have hv := hpref v rfl
    have hcond : ¬(v ≠ "" ∧ v ∉ usedVoices (cleanupExpiredSessions expiry now ss)) :=
      fun hc => hc.2 hv
    simp only [if_neg hcond, hfind]
    rcases hss : cleanupExpiredSessions expiry now ss with _ | ⟨x, rest⟩
    · rw [hss] at ho
      simp at ho
    · rw [hss] at ho hstrict
      show (minByLastUsed x rest).2.voice = o.2.voice
      rw [minByLastUsed_unique ho hstrict]

theorem c9CleanupEval :
    cleanupExpiredSessions 10000 c9Now c9Sessions = c9Sessions := by
  norm_num [cleanupExpiredSessions, c9Sessions, c9Now, List.filter]

theorem pool_exhausted_reuses_lru_voice_witness :
    (getVoiceForSession 10000 c9Now c9Sessions "s6" (some "nova")).1 = "fable" :=
  pool_exhausted_reuses_lru_voice 10000 c9Now c9Sessions "s6" (some "nova")
    ("s3", { voice := "fable", created_at := 0, last_used := 890 })
    (by decide) (by decide)
    (by
      rw [c9CleanupEval]
      decide)
    (by
      intro v hv
      cases hv
      rw [c9CleanupEval]
      decide)
    (by
      rw [c9CleanupEval]
      decide)
    (by
      rw [c9CleanupEval]
      decide)

end VoiceHandler

